import Mathlib

/-!
Verification of the scrab repository: a laundry/pickup order-management
backend (mobile-OTP auth, order creation with photo uploads, admin status
updates) plus a standalone single-file image-upload demo app.

The backend routes (src/Backend/routes/order.js, src/Backend/routes/admin.js)
and models (src/Backend/models/user.js, src/Backend/models/order.js) are
embedded shallowly: the document database is a list of records threaded as
explicit state, timestamps are naturals (milliseconds), and each route
handler becomes a pure function from request data and store state to a
response and a new state.
-/

namespace Scrab

/-! ## Generic list helpers

`updateFirst p f l` rewrites the first element of `l` satisfying `p` with
`f`, leaving the rest unchanged.  It models the single-document update
performed by mongoose `findOneAndUpdate` / `findByIdAndUpdate`. -/

def updateFirst (p : α → Bool) (f : α → α) : List α → List α
  | [] => []
  | x :: xs => if p x then f x :: xs else x :: updateFirst p f xs

theorem find?_updateFirst (p : α → Bool) (f : α → α) (l : List α) (u : α)
    (h : l.find? p = some u) (hf : p (f u) = true) :
    (updateFirst p f l).find? p = some (f u) := by
  induction l with
  | nil => simp at h
  | cons x xs ih =>
    by_cases hx : p x = true
    · simp [List.find?, hx] at h
      subst h
      simp [updateFirst, hx, List.find?, hf]
    · simp only [Bool.not_eq_true] at hx
      simp [List.find?, hx] at h
      simp [updateFirst, hx, List.find?, ih h]

theorem mem_updateFirst (p : α → Bool) (f : α → α) (l : List α) (x : α)
    (hx : x ∈ updateFirst p f l) : x ∈ l ∨ ∃ y ∈ l, x = f y := by
  induction l with
  | nil => simp [updateFirst] at hx
  | cons a as ih =>
    by_cases ha : p a = true
    · simp [updateFirst, ha] at hx
      rcases hx with h | h
      · exact Or.inr ⟨a, by simp, h⟩
      · exact Or.inl (by simp [h])
    · simp only [Bool.not_eq_true] at ha
      simp [updateFirst, ha] at hx
      rcases hx with h | h
      · exact Or.inl (by simp [h])
      · rcases ih h with h2 | ⟨y, hy, hxy⟩
        · exact Or.inl (by simp [h2])
        · exact Or.inr ⟨y, by simp [hy], hxy⟩

theorem find?_append_model (p : α → Bool) (l₁ l₂ : List α) :
    (l₁ ++ l₂).find? p = ((l₁.find? p).orElse fun _ => l₂.find? p) := by
  induction l₁ with
  | nil => simp
  | cons x xs ih =>
    by_cases hx : p x = true
    · simp [List.find?, hx]
    · simp only [Bool.not_eq_true] at hx
      simp [List.find?, hx, ih]

/-! ## Auth workflow (src/Backend/routes/order.js, OTP part; models/user.js)

User schema: `{ mobile: unique String, otp: String, otpExpiry: Date }`.
Document ids are naturals; the store carries a fresh-id counter standing in
for ObjectId generation. -/

structure User where
  _id : Nat
  mobile : String
  otp : Option String
  otpExpiry : Option Nat
deriving Repr, DecidableEq

structure AuthState where
  users : List User
  nextUserId : Nat
deriving Repr, DecidableEq

def findOneUser (users : List User) (mobile : String) : Option User :=
  users.find? (fun u => u.mobile == mobile)

/-- Modelled from the spec: the external `otp-generator` package (a peripheral
collaborator excluded from src/) is, per the spec, a generator of a
"4-digit numeric code".  We model it as a deterministic extraction of `len`
decimal digits from a `seed` standing in for the randomness source. -/
def otpGenerate (len seed : Nat) : String :=
  String.mk ((List.range len).map (fun i => Nat.digitChar (seed / 10 ^ i % 10)))

structure SendOtpResponse where
  message : String
  otp : String
deriving Repr, DecidableEq

/-- `User.findOneAndUpdate({mobile}, {otp, otpExpiry}, {upsert: true, new: true})`:
update the first user matching `mobile`, or insert a fresh record when none
matches; returns the post-update document together with the new store. -/
def userUpsert (st : AuthState) (mobile otp : String) (expiry : Nat) :
    User × AuthState :=
  match findOneUser st.users mobile with
  | some u =>
    let u' : User := { u with otp := some otp, otpExpiry := some expiry }
    (u', { st with users := updateFirst (fun v => v.mobile == mobile)
                     (fun v => { v with otp := some otp, otpExpiry := some expiry })
                     st.users })
  | none =>
    let u' : User := { _id := st.nextUserId, mobile := mobile,
                       otp := some otp, otpExpiry := some expiry }
    (u', { users := st.users ++ [u'], nextUserId := st.nextUserId + 1 })

/-- POST /send-otp: generate a 4-digit code, set expiry to now + 5 minutes
(milliseconds), upsert the user record, and answer with the code. -/
def sendCode (st : AuthState) (mobile : String) (now seed : Nat) :
    SendOtpResponse × AuthState :=
  let otp := otpGenerate 4 seed
  let expiry := now + 5 * 60 * 1000
  let st' := (userUpsert st mobile otp expiry).2
  ({ message := "OTP sent", otp := otp }, st')

inductive VerifyResult where
  | success (userId : Nat)
  | error (status : Nat) (msg : String)
deriving Repr, DecidableEq

/-- `user.otpExpiry > Date.now()` with JS semantics: an undefined expiry
compares false. -/
def otpExpiryFuture (u : User) (now : Nat) : Bool :=
  match u.otpExpiry with
  | some e => now < e
  | none => false

/-- POST /verify-otp: look the user up by mobile; succeed only when the
stored code equals the supplied one and the expiry is strictly in the
future; otherwise a single undifferentiated 400 error. -/
def verifyCode (st : AuthState) (mobile code : String) (now : Nat) :
    VerifyResult :=
  match findOneUser st.users mobile with
  | some user =>
    if user.otp == some code && otpExpiryFuture user now then
      .success user._id
    else
      .error 400 "Invalid or expired OTP"
  | none => .error 400 "Invalid or expired OTP"

theorem digitChar_isDigit (n : Nat) (h : n < 10) :
    (Nat.digitChar n).isDigit = true := by
  interval_cases n <;> decide

theorem otpGenerate_length (len seed : Nat) :
    (otpGenerate len seed).length = len := by
  simp [otpGenerate, String.length]

theorem otpGenerate_digits (len seed : Nat) :
    ∀ c ∈ (otpGenerate len seed).data, c.isDigit = true := by
  intro c hc
  simp [otpGenerate] at hc
  obtain ⟨i, _, hi⟩ := hc
  subst hi
  exact digitChar_isDigit _ (Nat.mod_lt _ (by norm_num))

/-- After an upsert, looking the mobile up finds a record carrying exactly
the new code and expiry. -/
theorem findOneUser_userUpsert (st : AuthState) (mobile otp : String)
    (expiry : Nat) :
    ∃ u, findOneUser (userUpsert st mobile otp expiry).2.users mobile = some u ∧
      u.otp = some otp ∧ u.otpExpiry = some expiry := by
  unfold userUpsert
  cases hf : findOneUser st.users mobile with
  | some u =>
    refine ⟨{ u with otp := some otp, otpExpiry := some expiry }, ?_, rfl, rfl⟩
    simp only [findOneUser] at hf ⊢
    have hpu := List.find?_some hf
    exact find?_updateFirst _ _ _ _ hf (by simpa using hpu)
  | none =>
    refine ⟨{ _id := st.nextUserId, mobile := mobile,
              otp := some otp, otpExpiry := some expiry }, ?_, rfl, rfl⟩
    simp only [findOneUser] at hf ⊢
    rw [find?_append_model, hf]
    simp

/-- C1: for every mobile number, `sendCode` generates a 4-digit numeric code
(every character a decimal digit, length 4), returns that generated code in
the response body, and stores it on the user record for the mobile. -/
theorem sendCode_four_digit_code (st : AuthState) (mobile : String)
    (now seed : Nat) :
    (sendCode st mobile now seed).1.otp = otpGenerate 4 seed ∧
    (sendCode st mobile now seed).1.otp.length = 4 ∧
    (∀ c ∈ (sendCode st mobile now seed).1.otp.data, c.isDigit = true) ∧
    ∃ u, findOneUser (sendCode st mobile now seed).2.users mobile = some u ∧
      u.otp = some (sendCode st mobile now seed).1.otp := by
  refine ⟨rfl, otpGenerate_length 4 seed, otpGenerate_digits 4 seed, ?_⟩
  obtain ⟨u, hu, hotp, _⟩ :=
    findOneUser_userUpsert st mobile (otpGenerate 4 seed) (now + 5 * 60 * 1000)
  exact ⟨u, hu, hotp⟩

/-- Under the schema invariant (mobile numbers unique), any user found among
the records by `findOneUser` is exactly the member record with that mobile. -/
theorem findOneUser_eq_some_iff (users : List User) (mobile : String)
    (hnodup : (users.map User.mobile).Nodup) (u : User) :
    findOneUser users mobile = some u ↔ u ∈ users ∧ u.mobile = mobile := by
  have hinj := List.inj_on_of_nodup_map hnodup
  constructor
  · intro h
    refine ⟨List.mem_of_find?_eq_some h, ?_⟩
    have := List.find?_some h
    simpa using this
  · rintro ⟨hmem, hm⟩
    cases hf : List.find? (fun v => v.mobile == mobile) users with
    | none =>
      exfalso
      have := List.find?_eq_none.mp hf u hmem
      simp [hm] at this
    | some v =>
      have hvmem := List.mem_of_find?_eq_some hf
      have hvm : v.mobile = mobile := by simpa using List.find?_some hf
      have : v = u := hinj hvmem hmem (by rw [hvm, hm])
      simpa [findOneUser, this] using hf

/-- C2: `verifyCode` succeeds with a user id exactly when a record for the
mobile exists whose stored code equals the supplied one and whose expiry is
strictly in the future; in every other case it reports the single
undifferentiated 400 error "Invalid or expired OTP". -/
theorem verifyCode_characterization (st : AuthState) (mobile code : String)
    (now : Nat) (hnodup : (st.users.map User.mobile).Nodup) :
    (∀ uid, verifyCode st mobile code now = .success uid ↔
      ∃ u ∈ st.users, u.mobile = mobile ∧ u._id = uid ∧ u.otp = some code ∧
        ∃ e, u.otpExpiry = some e ∧ now < e) ∧
    ((¬ ∃ u ∈ st.users, u.mobile = mobile ∧ u.otp = some code ∧
        ∃ e, u.otpExpiry = some e ∧ now < e) →
      verifyCode st mobile code now = .error 400 "Invalid or expired OTP") := by
  unfold verifyCode
  cases hf : findOneUser st.users mobile with
  | none =>
    constructor
    · intro uid
      simp only [reduceCtorEq, false_iff]
      rintro ⟨u, hmem, hm, _, _, _⟩
      have := List.find?_eq_none.mp hf u hmem
      simp [hm] at this
    · intro _; rfl
  | some user =>
    have huser := (findOneUser_eq_some_iff st.users mobile hnodup user).mp hf
    by_cases hcond : (user.otp == some code && otpExpiryFuture user now) = true
    · have hotp : user.otp = some code := by
        have := (Bool.and_eq_true _ _).mp hcond
        simpa using this.1
      have hexp : ∃ e, user.otpExpiry = some e ∧ now < e := by
        have hfut := ((Bool.and_eq_true _ _).mp hcond).2
        unfold otpExpiryFuture at hfut
        cases he : user.otpExpiry with
        | none => rw [he] at hfut; simp at hfut
        | some e =>
          rw [he] at hfut
          exact ⟨e, rfl, by simpa using hfut⟩
      constructor
      · intro uid
        simp only [hcond, if_true, VerifyResult.success.injEq]
        constructor
        · intro h
          exact ⟨user, huser.1, huser.2, h, hotp, hexp⟩
        · rintro ⟨u, hmem, hm, hid, _, _⟩
          have : u = user :=
            List.inj_on_of_nodup_map hnodup hmem huser.1 (by rw [hm, huser.2])
          rw [← hid, this]
      · intro hno
        exact absurd ⟨user, huser.1, huser.2, hotp, hexp⟩ hno
    · constructor
      · intro uid
        simp only [hcond, if_false, reduceCtorEq, false_iff]
        rintro ⟨u, hmem, hm, _, hotp, e, he, hlt⟩
        have : u = user :=
          List.inj_on_of_nodup_map hnodup hmem huser.1 (by rw [hm, huser.2])
        subst this
        apply hcond
        simp [hotp, otpExpiryFuture, he, hlt]
      · intro _
        simp [hcond]

/-- Witness for C2 at a concrete store: the stored code "1234" with expiry
1000 verifies at time 0 yielding user id 1. -/
theorem verifyCode_characterization_witness :
    verifyCode { users := [{ _id := 1, mobile := "9999999999",
                             otp := some "1234", otpExpiry := some 1000 }],
                 nextUserId := 2 } "9999999999" "1234" 0 = .success 1 :=
  ((verifyCode_characterization
      { users := [{ _id := 1, mobile := "9999999999",
                    otp := some "1234", otpExpiry := some 1000 }],
        nextUserId := 2 } "9999999999" "1234" 0 (by decide)).1 1).mpr
    ⟨{ _id := 1, mobile := "9999999999", otp := some "1234",
       otpExpiry := some 1000 }, by decide, rfl, rfl, rfl, 1000, rfl, by decide⟩

/-- C3: round-trip — after `sendCode(mobile)`, verifying the returned code
before the 5-minute expiry succeeds and yields the id of the user record
stored for that mobile. -/
theorem sendCode_verifyCode_roundtrip (st : AuthState) (mobile : String)
    (now seed now' : Nat) (h5 : now' < now + 5 * 60 * 1000) :
    ∃ u, findOneUser (sendCode st mobile now seed).2.users mobile = some u ∧
      verifyCode (sendCode st mobile now seed).2 mobile
        (sendCode st mobile now seed).1.otp now' = .success u._id := by
  obtain ⟨u, hu, hotp, hexp⟩ :=
    findOneUser_userUpsert st mobile (otpGenerate 4 seed) (now + 5 * 60 * 1000)
  refine ⟨u, hu, ?_⟩
  have hresp : (sendCode st mobile now seed).1.otp = otpGenerate 4 seed := rfl
  unfold verifyCode
  rw [show findOneUser (sendCode st mobile now seed).2.users mobile
        = findOneUser (userUpsert st mobile (otpGenerate 4 seed)
            (now + 5 * 60 * 1000)).2.users mobile from rfl, hu, hresp]
  simp [hotp, otpExpiryFuture, hexp, h5]

/-- Witness for C3: from the empty store, mobile "9999999999" at time 0 with
seed 4321, verifying at time 299999 succeeds with the stored user's id. -/
theorem sendCode_verifyCode_roundtrip_witness :
    ∃ u, findOneUser (sendCode { users := [], nextUserId := 0 }
            "9999999999" 0 4321).2.users "9999999999" = some u ∧
      verifyCode (sendCode { users := [], nextUserId := 0 }
            "9999999999" 0 4321).2 "9999999999"
        (sendCode { users := [], nextUserId := 0 } "9999999999" 0 4321).1.otp
        299999 = .success u._id :=
  sendCode_verifyCode_roundtrip { users := [], nextUserId := 0 }
    "9999999999" 0 4321 299999 (by decide)

/-! ## Order workflow (src/Backend/routes/order.js; models/order.js)

Order schema: `{ customer: ObjectId ref User, category: String,
weight: Number, photos: [String], date: String, time: String,
status: String default "Pending" }`.  Body fields arrive from the
multipart form as optional strings; the JS handler tests them for
truthiness, so a field is "present" when supplied and non-empty.  The
userId body field denotes a document id and is modelled as `Option Nat`. -/

structure UploadedFile where
  path : String
deriving Repr, DecidableEq

structure Order where
  _id : Nat
  customer : Nat
  category : String
  weight : String
  photos : List String
  date : String
  time : String
  status : String
deriving Repr, DecidableEq

structure OrderStore where
  orders : List Order
  nextOrderId : Nat
deriving Repr, DecidableEq

structure CreateOrderBody where
  userId : Option Nat
  category : Option String
  weight : Option String
  date : Option String
  time : Option String
deriving Repr, DecidableEq

/-- JS truthiness of an optional string body field: falsy when missing or
empty. -/
def present : Option String → Bool
  | none => false
  | some s => !(s == "")

inductive CreateOrderResult where
  | badRequest (error : String)
  | uploadError (message : String)
  | ok (order : Order)
deriving Repr, DecidableEq

/-- POST /new handler body (after multer): reject with 400 when any field is
falsy or no files were attached; otherwise persist an Order referencing the
user, with the files' stored paths and the schema default status "Pending",
and return the created record. -/
def createOrder (st : OrderStore) (body : CreateOrderBody)
    (files : List UploadedFile) : CreateOrderResult × OrderStore :=
  if !body.userId.isSome || !present body.category || !present body.weight ||
     !present body.date || !present body.time || files.length == 0 then
    (.badRequest "All fields required", st)
  else
    let order : Order := {
      _id := st.nextOrderId
      customer := body.userId.getD 0
      category := body.category.getD ""
      weight := body.weight.getD ""
      photos := files.map (fun f => f.path)
      date := body.date.getD ""
      time := body.time.getD ""
      status := "Pending" }
    (.ok order, { orders := st.orders ++ [order],
                  nextOrderId := st.nextOrderId + 1 })

/-- Modelled from the spec: the multipart upload parser
(`upload.array("photos", 5)`), a peripheral collaborator excluded from src/,
admits at most 5 files for the photos field and rejects the request
otherwise. `postNew` is the full route: the upload layer followed by the
handler. -/
def postNew (st : OrderStore) (body : CreateOrderBody)
    (files : List UploadedFile) : CreateOrderResult × OrderStore :=
  if files.length ≤ 5 then createOrder st body files
  else (.uploadError "Unexpected field", st)

/-- C4: `createOrder` rejects with the 400 validation error exactly when one
of the five body fields is absent (falsy) or no files are attached; in
particular any call with 0 files fails, and a rejected call leaves the
store unchanged. -/
theorem createOrder_validation (st : OrderStore) (body : CreateOrderBody)
    (files : List UploadedFile) :
    ((createOrder st body files).1 = .badRequest "All fields required" ↔
      body.userId = none ∨ present body.category = false ∨
      present body.weight = false ∨ present body.date = false ∨
      present body.time = false ∨ files = []) ∧
    (createOrder st body []).1 = .badRequest "All fields required" ∧
    ((createOrder st body files).1 = .badRequest "All fields required" →
      (createOrder st body files).2 = st) := by
  have hcond : (!body.userId.isSome || !present body.category ||
      !present body.weight || !present body.date || !present body.time ||
      files.length == 0) = true ↔
      (body.userId = none ∨ present body.category = false ∨
       present body.weight = false ∨ present body.date = false ∨
       present body.time = false ∨ files = []) := by
    simp only [Bool.or_eq_true, Bool.not_eq_true', Option.not_isSome,
      Option.isNone_iff_eq_none, beq_iff_eq, List.length_eq_zero]
    tauto
  refine ⟨?_, ?_, ?_⟩
  · cases hb : (!body.userId.isSome || !present body.category ||
        !present body.weight || !present body.date || !present body.time ||
        files.length == 0) with
    | true =>
      unfold createOrder
      rw [hb]
      exact iff_of_true rfl (hcond.mp hb)
    | false =>
      unfold createOrder
      rw [hb]
      refine iff_of_false (by simp) (fun hd => ?_)
      have hcontra := hcond.mpr hd
      rw [hb] at hcontra
      simp at hcontra
  · unfold createOrder
    simp
  · cases hb : (!body.userId.isSome || !present body.category ||
        !present body.weight || !present body.date || !present body.time ||
        files.length == 0) with
    | true =>
      unfold createOrder
      rw [hb]
      intro _; rfl
    | false =>
      unfold createOrder
      rw [hb]
      intro hcontra
      simp at hcontra

/-- C5: on a successful `createOrder` call (through the upload layer), the
persisted Order references the supplied userId as customer, has status
"Pending", its photos are exactly the stored paths of the uploaded files
(with matching length, between 1 and 5), and the created record is what
gets appended to the store and returned. -/
theorem createOrder_success_spec (st : OrderStore) (body : CreateOrderBody)
    (files : List UploadedFile) (order : Order)
    (h : (postNew st body files).1 = .ok order) :
    (∃ uid, body.userId = some uid ∧ order.customer = uid) ∧
    order.status = "Pending" ∧
    order.photos = files.map (fun f => f.path) ∧
    order.photos.length = files.length ∧
    1 ≤ files.length ∧ files.length ≤ 5 ∧
    (postNew st body files).2.orders = st.orders ++ [order] := by
  unfold postNew at h ⊢
  by_cases hlen : files.length ≤ 5
  · rw [if_pos hlen] at h ⊢
    unfold createOrder at h ⊢
    cases hc : (!body.userId.isSome || !present body.category ||
        !present body.weight || !present body.date || !present body.time ||
        files.length == 0) with
    | true => rw [hc] at h; simp at h
    | false =>
      rw [hc] at h
      have hsome : body.userId.isSome = true := by
        by_contra hn
        simp only [Bool.not_eq_true] at hn
        simp [hn] at hc
      have hnz : ¬ files.length = 0 := by
        intro hz
        simp [hz] at hc
      have h2 : CreateOrderResult.ok
          { _id := st.nextOrderId
            customer := body.userId.getD 0
            category := body.category.getD ""
            weight := body.weight.getD ""
            photos := files.map (fun f => f.path)
            date := body.date.getD ""
            time := body.time.getD ""
            status := "Pending" } = .ok order := h
      cases h2
      refine ⟨⟨body.userId.getD 0, ?_, rfl⟩, rfl, rfl, by simp, by omega, hlen, rfl⟩
      cases hbu : body.userId with
      | none => rw [hbu] at hsome; simp at hsome
      | some uid => simp
  · rw [if_neg hlen] at h
    simp at h

/-- Witness for C5: a concrete successful order creation with two files. -/
theorem createOrder_success_spec_witness :
    (∃ uid, (some 7 : Option Nat) = some uid ∧
      (Order.mk 0 7 "metal" "10" ["uploads/a.jpg", "uploads/b.jpg"]
        "2025-01-01" "10am" "Pending").customer = uid) ∧
    (Order.mk 0 7 "metal" "10" ["uploads/a.jpg", "uploads/b.jpg"]
      "2025-01-01" "10am" "Pending").status = "Pending" ∧
    (Order.mk 0 7 "metal" "10" ["uploads/a.jpg", "uploads/b.jpg"]
      "2025-01-01" "10am" "Pending").photos =
      [UploadedFile.mk "uploads/a.jpg", UploadedFile.mk "uploads/b.jpg"].map
        (fun f => f.path) ∧
    (Order.mk 0 7 "metal" "10" ["uploads/a.jpg", "uploads/b.jpg"]
      "2025-01-01" "10am" "Pending").photos.length =
      [UploadedFile.mk "uploads/a.jpg", UploadedFile.mk "uploads/b.jpg"].length ∧
    1 ≤ [UploadedFile.mk "uploads/a.jpg", UploadedFile.mk "uploads/b.jpg"].length ∧
    [UploadedFile.mk "uploads/a.jpg", UploadedFile.mk "uploads/b.jpg"].length ≤ 5 ∧
    (postNew { orders := [], nextOrderId := 0 }
      { userId := some 7, category := some "metal", weight := some "10",
        date := some "2025-01-01", time := some "10am" }
      [UploadedFile.mk "uploads/a.jpg", UploadedFile.mk "uploads/b.jpg"]).2.orders =
      [] ++ [Order.mk 0 7 "metal" "10" ["uploads/a.jpg", "uploads/b.jpg"]
        "2025-01-01" "10am" "Pending"] :=
  createOrder_success_spec { orders := [], nextOrderId := 0 }
    { userId := some 7, category := some "metal", weight := some "10",
      date := some "2025-01-01", time := some "10am" }
    [UploadedFile.mk "uploads/a.jpg", UploadedFile.mk "uploads/b.jpg"]
    (Order.mk 0 7 "metal" "10" ["uploads/a.jpg", "uploads/b.jpg"]
      "2025-01-01" "10am" "Pending") (by decide)

/-! ## Listing a user's orders (GET /my-orders/:userId)

`find({ customer: userId }).sort('-_id')`: filter by customer, then sort by
descending document id. -/

/-- The sort key of `.sort('-_id')`: descending document id. -/
def byIdDesc (a b : Order) : Prop := b._id ≤ a._id

instance : DecidableRel byIdDesc := fun a b => Nat.decLe b._id a._id

instance : IsTotal Order byIdDesc :=
  ⟨fun a b => (Nat.le_total a._id b._id).elim Or.inr Or.inl⟩

instance : IsTrans Order byIdDesc :=
  ⟨fun _ _ _ hab hbc => Nat.le_trans hbc hab⟩

def listOrders (st : OrderStore) (userId : Nat) : List Order :=
  List.insertionSort byIdDesc (st.orders.filter (fun o => o.customer == userId))

/-- In a list sorted by descending id whose member `x` strictly dominates
every other member's id, `x` is the head. -/
theorem head?_of_sorted_max (l : List Order) (x : Order) (hmem : x ∈ l)
    (hsorted : l.Sorted byIdDesc) (hmax : ∀ y ∈ l, y ≠ x → y._id < x._id) :
    l.head? = some x := by
  cases l with
  | nil => simp at hmem
  | cons a t =>
    by_cases hax : a = x
    · simp [hax]
    · exfalso
      have hxt : x ∈ t := by
        rcases List.mem_cons.mp hmem with h | h
        · exact absurd h.symm hax
        · exact h
      have h1 : byIdDesc a x := (List.sorted_cons.mp hsorted).1 x hxt
      have h2 : a._id < x._id := hmax a (List.mem_cons_self a t) hax
      unfold byIdDesc at h1
      omega

/-- On success, `postNew` returns an order carrying the store's fresh id and
appends exactly that order. -/
theorem postNew_ok_state (st : OrderStore) (body : CreateOrderBody)
    (files : List UploadedFile) (order : Order)
    (h : (postNew st body files).1 = .ok order) :
    order._id = st.nextOrderId ∧
    (postNew st body files).2 =
      { orders := st.orders ++ [order], nextOrderId := st.nextOrderId + 1 } := by
  unfold postNew at h ⊢
  by_cases hlen : files.length ≤ 5
  · rw [if_pos hlen] at h ⊢
    unfold createOrder at h ⊢
    cases hc : (!body.userId.isSome || !present body.category ||
        !present body.weight || !present body.date || !present body.time ||
        files.length == 0) with
    | true => rw [hc] at h; simp at h
    | false =>
      rw [hc] at h
      have h2 : CreateOrderResult.ok
          { _id := st.nextOrderId
            customer := body.userId.getD 0
            category := body.category.getD ""
            weight := body.weight.getD ""
            photos := files.map (fun f => f.path)
            date := body.date.getD ""
            time := body.time.getD ""
            status := "Pending" } = .ok order := h
      cases h2
      exact ⟨rfl, rfl⟩
  · rw [if_neg hlen] at h
    simp at h

/-- C6: `listOrders(userId)` returns exactly the stored orders whose
customer is `userId`, sorted by descending id; consequently, right after a
successful order creation the new order is first among that user's
orders (given the store invariant that every stored id is below the
fresh-id counter). -/
theorem listOrders_spec (st : OrderStore) (uid : Nat)
    (body : CreateOrderBody) (files : List UploadedFile) (order : Order)
    (hinv : ∀ o ∈ st.orders, o._id < st.nextOrderId) :
    (listOrders st uid).Perm (st.orders.filter (fun o => o.customer == uid)) ∧
    (listOrders st uid).Sorted byIdDesc ∧
    ((postNew st body files).1 = .ok order →
      (listOrders (postNew st body files).2 order.customer).head? =
        some order) := by
  refine ⟨List.perm_insertionSort byIdDesc _,
    List.sorted_insertionSort byIdDesc _, fun h => ?_⟩
  obtain ⟨hid, hstate⟩ := postNew_ok_state st body files order h
  rw [hstate]
  apply head?_of_sorted_max
  · rw [listOrders, List.mem_insertionSort, List.mem_filter]
    simp
  · exact List.sorted_insertionSort byIdDesc _
  · intro y hy hyne
    rw [listOrders, List.mem_insertionSort, List.mem_filter] at hy
    rcases List.mem_append.mp hy.1 with h1 | h1
    · rw [hid]
      exact hinv y h1
    · exact absurd (by simpa using h1) hyne

def demoBody : CreateOrderBody :=
  { userId := some 7, category := some "metal", weight := some "10",
    date := some "2025-01-01", time := some "10am" }

def demoFile : UploadedFile := { path := "uploads/x.jpg" }

def demoOrder : Order :=
  { _id := 0, customer := 7, category := "metal", weight := "10",
    photos := ["uploads/x.jpg"], date := "2025-01-01", time := "10am",
    status := "Pending" }

/-- Witness for C6: creating a first order in the empty store puts it at
the head of that user's order listing. -/
theorem listOrders_spec_witness :
    (listOrders (postNew { orders := [], nextOrderId := 0 }
        demoBody [demoFile]).2 demoOrder.customer).head? = some demoOrder :=
  (listOrders_spec { orders := [], nextOrderId := 0 } 7 demoBody [demoFile]
    demoOrder (by simp)).2.2 (by decide)

/-! ## Admin workflow (src/Backend/routes/admin.js)

POST ./order/:orderId/status: `findByIdAndUpdate(orderId, { status },
{ new: true })` — overwrite the matched order's status with the supplied
string, with no validation, returning the updated document or null. -/

def setOrderStatus (st : OrderStore) (orderId : Nat) (status : String) :
    Option Order × OrderStore :=
  match st.orders.find? (fun o => o._id == orderId) with
  | some o =>
    (some { o with status := status },
     { st with orders := updateFirst (fun v => v._id == orderId)
                           (fun v => { v with status := status }) st.orders })
  | none => (none, st)

/-- The four recognized status values of the order schema
(src/Backend/models/order.js line 9). -/
def validStatuses : List String := ["Pending", "Scheduled", "Completed", "Rejected"]

/-- States of the order store reachable from the empty store by any
sequence of order creations and admin status updates. -/
inductive OrderReachable : OrderStore → Prop where
  | init : OrderReachable { orders := [], nextOrderId := 0 }
  | create (st : OrderStore) (body : CreateOrderBody)
      (files : List UploadedFile) :
      OrderReachable st → OrderReachable (postNew st body files).2
  | setStatus (st : OrderStore) (orderId : Nat) (status : String) :
      OrderReachable st → OrderReachable (setOrderStatus st orderId status).2

/-- C7 as stated is false: since `setOrderStatus` performs no validation, a
reachable store can hold an order whose status is outside the four
enumerated values — concretely, after creating an order and setting its
status to "Bogus". -/
theorem order_status_invariant_counterexample :
    ¬ (∀ st, OrderReachable st →
        ∀ o ∈ st.orders, o.status ∈ validStatuses) := by
  intro hall
  have hreach : OrderReachable
      (setOrderStatus (postNew { orders := [], nextOrderId := 0 }
        demoBody [demoFile]).2 0 "Bogus").2 :=
    .setStatus _ 0 "Bogus" (.create _ demoBody [demoFile] .init)
  have hmem : ({ demoOrder with status := "Bogus" } : Order) ∈
      (setOrderStatus (postNew { orders := [], nextOrderId := 0 }
        demoBody [demoFile]).2 0 "Bogus").2.orders :=
    List.mem_singleton.mpr rfl
  have := hall _ hreach _ hmem
  simp [validStatuses] at this

/-- Either `postNew` leaves the store's orders unchanged, or it appends one
order whose status is the schema default "Pending". -/
theorem postNew_orders_cases (st : OrderStore) (body : CreateOrderBody)
    (files : List UploadedFile) :
    (postNew st body files).2.orders = st.orders ∨
    ∃ order, (postNew st body files).2.orders = st.orders ++ [order] ∧
      order.status = "Pending" := by
  unfold postNew
  by_cases hlen : files.length ≤ 5
  · rw [if_pos hlen]
    unfold createOrder
    cases hc : (!body.userId.isSome || !present body.category ||
        !present body.weight || !present body.date || !present body.time ||
        files.length == 0) with
    | true => exact Or.inl rfl
    | false => exact Or.inr ⟨_, rfl, rfl⟩
  · rw [if_neg hlen]
    exact Or.inl rfl

/-- Any order in the store after `setOrderStatus` is either an untouched
old order or an old order with its status overwritten. -/
theorem setOrderStatus_mem_cases (st : OrderStore) (orderId : Nat)
    (status : String) (x : Order)
    (hx : x ∈ (setOrderStatus st orderId status).2.orders) :
    x ∈ st.orders ∨ ∃ y ∈ st.orders, x = { y with status := status } := by
  unfold setOrderStatus at hx
  cases hf : st.orders.find? (fun o => o._id == orderId) with
  | some o =>
    rw [hf] at hx
    exact mem_updateFirst _ _ _ _ hx
  | none =>
    rw [hf] at hx
    exact Or.inl hx

/-- Amended reachability: status updates restricted to the four recognized
values. -/
inductive OrderReachableChecked : OrderStore → Prop where
  | init : OrderReachableChecked { orders := [], nextOrderId := 0 }
  | create (st : OrderStore) (body : CreateOrderBody)
      (files : List UploadedFile) :
      OrderReachableChecked st → OrderReachableChecked (postNew st body files).2
  | setStatus (st : OrderStore) (orderId : Nat) (status : String)
      (hs : status ∈ validStatuses) :
      OrderReachableChecked st →
        OrderReachableChecked (setOrderStatus st orderId status).2

/-- C7 amended: in every store reachable by order creations and status
updates whose supplied status is one of the four enumerated values, every
order's status is one of those four values (creation defaults to
"Pending"). -/
theorem order_status_invariant_checked (st : OrderStore)
    (h : OrderReachableChecked st) :
    ∀ o ∈ st.orders, o.status ∈ validStatuses := by
  induction h with
  | init => intro o ho; simp at ho
  | create st body files _ ih =>
    intro o ho
    rcases postNew_orders_cases st body files with heq | ⟨order, heq, hs⟩
    · rw [heq] at ho
      exact ih o ho
    · rw [heq] at ho
      rcases List.mem_append.mp ho with h1 | h1
      · exact ih o h1
      · have h2 : o = order := by simpa using h1
        rw [h2, hs]
        simp [validStatuses]
  | setStatus st orderId status hs _ ih =>
    intro o ho
    rcases setOrderStatus_mem_cases st orderId status o ho with h1 | ⟨y, _, heq⟩
    · exact ih o h1
    · rw [heq]
      exact hs

/-- Witness for the amended C7: the order created in the empty store and
then scheduled has a recognized status. -/
theorem order_status_invariant_checked_witness :
    ({ demoOrder with status := "Scheduled" } : Order).status ∈ validStatuses :=
  order_status_invariant_checked _
    (.setStatus _ 0 "Scheduled" (by decide)
      (.create _ demoBody [demoFile] .init)) _ (List.mem_singleton.mpr rfl)

/-- C8: `setOrderStatus` answers null exactly when no stored order has the
given id (leaving the store unchanged), and otherwise unconditionally
overwrites the matched order's status with the supplied string — any
string, unvalidated — returning the updated record, which is in the new
store. -/
theorem setOrderStatus_spec (st : OrderStore) (orderId : Nat)
    (status : String) :
    ((setOrderStatus st orderId status).1 = none ↔
      ∀ o ∈ st.orders, o._id ≠ orderId) ∧
    ((setOrderStatus st orderId status).1 = none →
      (setOrderStatus st orderId status).2 = st) ∧
    (∀ o', (setOrderStatus st orderId status).1 = some o' →
      o'.status = status ∧
      o' ∈ (setOrderStatus st orderId status).2.orders ∧
      ∃ o ∈ st.orders, o._id = orderId ∧ o' = { o with status := status }) := by
  unfold setOrderStatus
  cases hf : st.orders.find? (fun o => o._id == orderId) with
  | none =>
    refine ⟨iff_of_true rfl ?_, fun _ => rfl, fun o' h => by simp at h⟩
    intro o ho
    have := List.find?_eq_none.mp hf o ho
    simpa using this
  | some o =>
    have hmem := List.mem_of_find?_eq_some hf
    have hpo : o._id = orderId := by simpa using List.find?_some hf
    refine ⟨iff_of_false (by simp) (fun hall => absurd hpo (hall o hmem)),
      fun hcontra => by simp at hcontra, fun o' h => ?_⟩
    have h2 : some ({ o with status := status } : Order) = some o' := h
    have h3 : ({ o with status := status } : Order) = o' :=
      Option.some.inj h2
    subst h3
    refine ⟨rfl, ?_, o, hmem, hpo, rfl⟩
    have hup := find?_updateFirst (fun v => v._id == orderId)
      (fun v => { v with status := status }) st.orders o hf (by simpa using hpo)
    exact List.mem_of_find?_eq_some hup

/-- Witness for C8: overwriting with the unrecognized status "Weird"
succeeds on a one-order store. -/
theorem setOrderStatus_spec_witness :
    ({ demoOrder with status := "Weird" } : Order).status = "Weird" ∧
    ({ demoOrder with status := "Weird" } : Order) ∈
      (setOrderStatus { orders := [demoOrder], nextOrderId := 1 } 0
        "Weird").2.orders ∧
    ∃ o ∈ ({ orders := [demoOrder], nextOrderId := 1 } : OrderStore).orders,
      o._id = 0 ∧ ({ demoOrder with status := "Weird" } : Order) =
        { o with status := "Weird" } :=
  (setOrderStatus_spec { orders := [demoOrder], nextOrderId := 1 } 0
    "Weird").2.2 { demoOrder with status := "Weird" } rfl

/-! ## Admin order listing (GET ./orders)

`find().populate('customer', 'mobile')`: all orders, each customer
reference expanded to the referenced user's document restricted to the
`mobile` field (plus its id); a dangling reference populates to null. -/

structure PopulatedCustomer where
  _id : Nat
  mobile : String
deriving Repr, DecidableEq

structure PopulatedOrder where
  _id : Nat
  customer : Option PopulatedCustomer
  category : String
  weight : String
  photos : List String
  date : String
  time : String
  status : String
deriving Repr, DecidableEq

def populateCustomer (users : List User) (o : Order) : PopulatedOrder :=
  { _id := o._id
    customer := (users.find? (fun u => u._id == o.customer)).map
      (fun u => { _id := u._id, mobile := u.mobile })
    category := o.category
    weight := o.weight
    photos := o.photos
    date := o.date
    time := o.time
    status := o.status }

def listAllOrders (users : List User) (st : OrderStore) :
    List PopulatedOrder :=
  st.orders.map (populateCustomer users)

/-- C9: `listAllOrders` returns every stored order with the customer
reference expanded to the owner's id and mobile number only; in particular
after `setOrderStatus(orderId, "Scheduled")` the listing shows that order
with status "Scheduled" and the expanded customer. -/
theorem listAllOrders_spec (users : List User) (st : OrderStore)
    (orderId : Nat) (o : Order) (u : User)
    (hfind : st.orders.find? (fun v => v._id == orderId) = some o)
    (hu : users.find? (fun v => v._id == o.customer) = some u) :
    (∀ o2 ∈ st.orders, populateCustomer users o2 ∈ listAllOrders users st) ∧
    (listAllOrders users st).length = st.orders.length ∧
    ∃ po ∈ listAllOrders users (setOrderStatus st orderId "Scheduled").2,
      po._id = o._id ∧ po.status = "Scheduled" ∧
      po.customer = some { _id := u._id, mobile := u.mobile } := by
  refine ⟨fun o2 ho2 => List.mem_map_of_mem _ ho2, List.length_map _ _, ?_⟩
  have hpo0 := List.find?_some hfind
  have hpo : (o._id == orderId) = true := by simpa using hpo0
  have hup := find?_updateFirst (fun v => v._id == orderId)
    (fun v => { v with status := "Scheduled" }) st.orders o hfind hpo
  have hmem : ({ o with status := "Scheduled" } : Order) ∈
      (setOrderStatus st orderId "Scheduled").2.orders := by
    unfold setOrderStatus
    rw [hfind]
    exact List.mem_of_find?_eq_some hup
  refine ⟨populateCustomer users { o with status := "Scheduled" },
    List.mem_map_of_mem _ hmem, rfl, rfl, ?_⟩
  show (users.find? (fun v => v._id == o.customer)).map _ = _
  rw [hu]
  rfl

def demoUser : User :=
  { _id := 7, mobile := "9999999999", otp := none, otpExpiry := none }

/-- Witness for C9 on a one-user, one-order store. -/
theorem listAllOrders_spec_witness :
    (∀ o2 ∈ ({ orders := [demoOrder], nextOrderId := 1 } : OrderStore).orders,
      populateCustomer [demoUser] o2 ∈
        listAllOrders [demoUser] { orders := [demoOrder], nextOrderId := 1 }) ∧
    (listAllOrders [demoUser]
      { orders := [demoOrder], nextOrderId := 1 }).length =
      ({ orders := [demoOrder], nextOrderId := 1 } : OrderStore).orders.length ∧
    ∃ po ∈ listAllOrders [demoUser]
        (setOrderStatus { orders := [demoOrder], nextOrderId := 1 } 0
          "Scheduled").2,
      po._id = demoOrder._id ∧ po.status = "Scheduled" ∧
      po.customer = some { _id := demoUser._id, mobile := demoUser.mobile } :=
  listAllOrders_spec [demoUser] { orders := [demoOrder], nextOrderId := 1 }
    0 demoOrder demoUser rfl rfl

end Scrab

namespace Scrbbbb

/-! ## Demo upload app (src/scrbbbb/app.js)

Metadata lives in uploads/data.json; `readData` wraps
`JSON.parse(fs.readFileSync(dataFile))` in a try/catch returning `[]` on
any failure, and `writeData` rewrites the whole file.  The file is
modelled by its three observable states: missing (readFileSync throws),
present but unparsable (JSON.parse throws), or holding a parsed array. -/

structure UploadItem where
  id : Nat
  name : String
  email : String
  description : String
  filename : String
  originalName : String
  mimetype : String
  size : Nat
  uploadedAt : String
deriving Repr, DecidableEq

inductive DataFile where
  | missing
  | corrupt
  | stored (items : List UploadItem)
deriving Repr, DecidableEq

def readData : DataFile → List UploadItem
  | .missing => []
  | .corrupt => []
  | .stored items => items

def writeData (arr : List UploadItem) : DataFile := .stored arr

structure IncomingFile where
  filename : String
  originalname : String
  mimetype : String
  size : Nat
deriving Repr, DecidableEq

inductive UploadResult where
  | badRequest (msg : String)
  | ok
deriving Repr, DecidableEq

/-- POST /upload: 400 when no file came through multer; otherwise build the
metadata item, read the existing array, prepend (newest first) and rewrite
the file. -/
def postUpload (fs : DataFile) (file : Option IncomingFile)
    (name email description : Option String) (now : Nat) (nowIso : String) :
    UploadResult × DataFile :=
  match file with
  | none => (.badRequest "No file uploaded.", fs)
  | some f =>
    let newItem : UploadItem :=
      { id := now
        name := name.getD ""
        email := email.getD ""
        description := description.getD ""
        filename := f.filename
        originalName := f.originalname
        mimetype := f.mimetype
        size := f.size
        uploadedAt := nowIso }
    (.ok, writeData (newItem :: readData fs))

/-- GET /admin: read the metadata array and render it (the listed items). -/
def getAdmin (fs : DataFile) : List UploadItem := readData fs

/-- C10: `readData` yields the empty list on a missing or unparsable
metadata file, so the admin listing works on both, and the first-ever
upload (and generally every upload) completes, prepending the new item
newest-first and rewriting the file. -/
theorem readData_resilient :
    readData .missing = [] ∧ readData .corrupt = [] ∧
    getAdmin .missing = [] ∧ getAdmin .corrupt = [] ∧
    (∀ (f : IncomingFile) (name email description : Option String)
        (now : Nat) (nowIso : String),
      postUpload .missing (some f) name email description now nowIso =
        (.ok, .stored [UploadItem.mk now (name.getD "") (email.getD "")
          (description.getD "") f.filename f.originalname f.mimetype
          f.size nowIso])) ∧
    (∀ (fs : DataFile) (f : IncomingFile)
        (name email description : Option String) (now : Nat) (nowIso : String),
      (postUpload fs (some f) name email description now nowIso).2 =
        .stored (UploadItem.mk now (name.getD "") (email.getD "")
          (description.getD "") f.filename f.originalname f.mimetype
          f.size nowIso :: readData fs)) :=
  ⟨rfl, rfl, rfl, rfl, fun _ _ _ _ _ _ => rfl, fun _ _ _ _ _ _ _ => rfl⟩

end Scrbbbb
